import Mathlib

/-!
Verification of the `ServeStaleCache` component (the stale-while-revalidate
cache of this repository).

The JavaScript class `ServeStaleCache` is embedded shallowly:

* A producer ("create callback") result is a JavaScript value that is either
  nullish (`null`/`undefined`, falsy) or an object carrying an optional
  `value` field and an optional numeric `ttl` field (`JsResult`).
* A producer call is identified by a numeric id allocated at invocation time;
  its eventual outcome (`ProducerOutcome`) is either a resolution with a
  `JsResult` or a rejection.
* A cache record's `value` field holds a promise; its possible states are
  captured by `ValueField`: settled with a result, settled rejected, the
  still-pending `_set` chain of a producer call, an adopted still-pending
  refresh promise, or the JavaScript `null` value.
* A cache record's `next` field (the pending-refresh handle) is captured by
  `NextField`: `null`, a pending producer promise, or a settled promise that
  is still referenced because the fulfillment callback never cleared it.
* The underlying `lru-cache` dependency is not part of this repository's
  sources; its behaviour (recency bump on `get`, insert-at-front on `set`,
  eviction of the least-recently-used entries past capacity with a `dispose`
  call on the evicted record) is modelled from the specification.
* Time is a natural number supplied to each operation, mirroring the
  overridable `_now()` hook.

The synchronous part of `get` is the function `ServeStaleCache.get`; the
asynchronous continuations that run when a producer settles are
`ServeStaleCache.settleInitial` (the `_set` chain) and
`ServeStaleCache.settleRefresh` (the background-refresh fulfillment callback,
attached at `cacheRecord.next.then(...)`).
-/

namespace ServeStale

abbrev Key := String

/-- A settled JavaScript producer result: either nullish (falsy) or an object
with an optional `value` field and an optional `ttl` field. -/
inductive JsResult where
  | nullish : JsResult
  | obj (value : Option Nat) (ttl : Option Nat) : JsResult
deriving DecidableEq

/-- The outcome of a producer call: its promise resolves with a `JsResult` or
rejects. -/
inductive ProducerOutcome where
  | ok (r : JsResult) : ProducerOutcome
  | err : ProducerOutcome
deriving DecidableEq

/-- The state of the promise stored in a cache record's `value` field. -/
inductive ValueField where
  | ok (r : JsResult) : ValueField
  | err : ValueField
  | pendInit (pid : Nat) (setNow : Nat) : ValueField
  | pendNext (pid : Nat) : ValueField
  | nullv : ValueField
deriving DecidableEq

/-- The state of a cache record's `next` field (the pending-refresh handle).
`settled`/`settledErr` represent a promise that has settled but is still
referenced by the field because the fulfillment callback did not clear it. -/
inductive NextField where
  | none : NextField
  | pending (pid : Nat) : NextField
  | settled (r : JsResult) : NextField
  | settledErr : NextField
deriving DecidableEq

/-- A cache record, with the fields of the source's `cacheRecord` object. -/
structure Entry where
  expires : Nat
  next : NextField
  value : ValueField
deriving DecidableEq

/-- The `ServeStaleCache` instance state: the LRU store (most recently used
first), its construction parameters, the log of records passed to the
`dispose` callback (in eviction order), and a counter allocating fresh
producer-call ids. -/
structure ServeStaleCache where
  cache : List (Key × Entry)
  capacity : Nat
  defaultTTL : Nat
  disposed : List Entry
  nextPid : Nat
deriving DecidableEq

/-- JavaScript `a || d` for an optional numeric option (`0` is falsy). -/
def jsOr (o : Option Nat) (d : Nat) : Nat :=
  match o with
  | some n => if n = 0 then d else n
  | Option.none => d

/-- The constructor: `capacity = opts.capacity || 5000`,
`defaultTTL = opts.defaultTTL || 0`, empty store. -/
def ServeStaleCache.make (capacity : Option Nat) (defaultTTL : Option Nat) :
    ServeStaleCache :=
  { cache := [], capacity := jsOr capacity 5000,
    defaultTTL := jsOr defaultTTL 0, disposed := [], nextPid := 0 }

/-- Modelled from the spec: lookup in the bounded store's index (first
binding for the key). -/
def storeLookup (k : Key) : List (Key × Entry) → Option Entry
  | [] => Option.none
  | (k', e) :: rest => if k' = k then some e else storeLookup k rest

/-- Modelled from the spec: remove every binding for the key. -/
def storeErase (k : Key) : List (Key × Entry) → List (Key × Entry)
  | [] => []
  | (k', e) :: rest =>
      if k' = k then storeErase k rest else (k', e) :: storeErase k rest

/-- Replace the (first) binding for the key in place, preserving recency
order; models mutating the record object held by the store. -/
def storeReplace (k : Key) (e : Entry) : List (Key × Entry) → List (Key × Entry)
  | [] => []
  | (k', e') :: rest =>
      if k' = k then (k, e) :: rest else (k', e') :: storeReplace k e rest

/-- Modelled from the spec: `lru.set(key, entry)` inserts or overwrites at
the most-recent position; when the store then exceeds its capacity the
least-recently-used entries are evicted and returned (they are passed to the
`dispose` callback). -/
def lruInsert (cap : Nat) (k : Key) (e : Entry) (l : List (Key × Entry)) :
    List (Key × Entry) × List Entry :=
  let l' := (k, e) :: storeErase k l
  (l'.take cap, (l'.drop cap).map Prod.snd)

/-- What a caller of `get` observes from the returned
`cacheRecord.value.then((val) => val.value)` promise. -/
inductive GetRes where
  | resolved (v : Option Nat) : GetRes
  | rejected : GetRes
  | typeErr : GetRes
  | awaitInit (pid : Nat) : GetRes
  | awaitNext (pid : Nat) : GetRes
deriving DecidableEq

/-- The caller-visible view of a record's `value` promise at return time:
a settled object yields its `value` field, a settled nullish result makes
`val.value` throw (rejecting the returned promise), a settled rejection
propagates, a pending chain leaves the caller awaiting the producer, and a
`null` field makes `get` itself throw a `TypeError`. -/
def callerView : ValueField → GetRes
  | ValueField.ok (JsResult.obj v _) => GetRes.resolved v
  | ValueField.ok JsResult.nullish => GetRes.rejected
  | ValueField.err => GetRes.rejected
  | ValueField.pendInit p _ => GetRes.awaitInit p
  | ValueField.pendNext p => GetRes.awaitNext p
  | ValueField.nullv => GetRes.typeErr

/-- How an awaiting caller's promise settles once the awaited producer call
settles: a rejection propagates, a nullish resolution makes the chain throw
(`val.ttl` in `_set`, or `val.value` in `get`), and an object resolution
yields the object's `value` field. -/
def settleView : ProducerOutcome → GetRes
  | ProducerOutcome.err => GetRes.rejected
  | ProducerOutcome.ok JsResult.nullish => GetRes.rejected
  | ProducerOutcome.ok (JsResult.obj v _) => GetRes.resolved v

/-- Final caller result, given the outcome of the producer call the caller
was (possibly) awaiting. -/
def GetRes.withOutcome : GetRes → ProducerOutcome → GetRes
  | GetRes.awaitInit _, o => settleView o
  | GetRes.awaitNext _, o => settleView o
  | r, _ => r

/-- The record built by `_set(key, promise)`: `expires = now + defaultTTL`,
`next = null`, `value` the pending `_set` chain of the producer call. -/
def mkRecord (now dtl pid : Nat) : Entry :=
  { expires := now + dtl, next := NextField.none,
    value := ValueField.pendInit pid now }

/-- `_set(key, promise)`: build the record and insert it into the LRU store
(evicted records are appended to the dispose log). Returns the record and
the updated cache state. -/
def ServeStaleCache._set (s : ServeStaleCache) (k : Key) (pid : Nat)
    (now : Nat) : Entry × ServeStaleCache :=
  let r := mkRecord now s.defaultTTL pid
  let inserted := lruInsert s.capacity k r s.cache
  (r, { s with cache := inserted.1, disposed := s.disposed ++ inserted.2 })

/-- The synchronous part of `get(key, create)` at time `now`. Returns the
updated cache state, the caller-visible result of
`cacheRecord.value.then((val) => val.value)`, and the number of `create()`
invocations performed (the id of an invocation is the state's `nextPid` at
the moment it is made). On a miss the record is stored before the producer
settles; on an expired hit (`expires < now`, strict) a fresh producer call
is recorded in the record's `next` field and the current (stale) `value`
promise is returned. -/
def ServeStaleCache.get (s : ServeStaleCache) (k : Key) (now : Nat) :
    ServeStaleCache × GetRes × Nat :=
  match storeLookup k s.cache with
  | Option.none =>
      let pid := s.nextPid
      let r := ServeStaleCache._set { s with nextPid := pid + 1 } k pid now
      (r.2, callerView (r.1).value, 1)
  | some e =>
      if e.expires < now then
        let pid := s.nextPid
        let e' := { e with next := NextField.pending pid }
        ({ s with
            cache := (k, e') :: storeErase k s.cache,
            nextPid := pid + 1 },
         callerView e'.value, 1)
      else
        ({ s with cache := (k, e) :: storeErase k s.cache },
         callerView e.value, 0)

/-- The settlement of the `_set` chain
`promise.then((val) => { if (val.ttl) { cacheRecord.expires = now + val.ttl; } return val; })`
for the producer call `pid` installed for key `k`: a rejection or a nullish
resolution (whose `val.ttl` access throws) rejects the record's `value`
chain; an object resolution settles it and, when the object's `ttl` is
truthy, moves `expires` to `setNow + ttl` (the `now` captured when `_set`
ran). -/
def ServeStaleCache.settleInitial (s : ServeStaleCache) (k : Key) (pid : Nat)
    (o : ProducerOutcome) : ServeStaleCache :=
  match storeLookup k s.cache with
  | Option.none => s
  | some e =>
      match e.value with
      | ValueField.pendInit p setNow =>
          if p = pid then
            let e' :=
              match o with
              | ProducerOutcome.err => { e with value := ValueField.err }
              | ProducerOutcome.ok JsResult.nullish =>
                  { e with value := ValueField.err }
              | ProducerOutcome.ok (JsResult.obj v t) =>
                  { e with
                    value := ValueField.ok (JsResult.obj v t),
                    expires :=
                      match t with
                      | some n => if n = 0 then e.expires else setNow + n
                      | Option.none => e.expires }
            { s with cache := storeReplace k e' s.cache }
          else s
      | _ => s

/-- The state a `next` promise reaches when its producer call settles. -/
def settledOf : ProducerOutcome → NextField
  | ProducerOutcome.ok r => NextField.settled r
  | ProducerOutcome.err => NextField.settledErr

/-- The `value` field obtained from `cacheRecord.value = cacheRecord.next`
(the `next` field is read at fulfillment time). -/
def valueOfNext : NextField → ValueField
  | NextField.none => ValueField.nullv
  | NextField.pending p => ValueField.pendNext p
  | NextField.settled r => ValueField.ok r
  | NextField.settledErr => ValueField.err

/-- The effective ttl used by the refresh callback:
`let _ttl = this.defaultTTL; if (cachedValue.ttl) { _ttl = cachedValue.ttl; }`
(a `ttl` of `0` is falsy, so the default is used). -/
def effectiveTtl (dtl : Nat) : Option Nat → Nat
  | some n => if n = 0 then dtl else n
  | Option.none => dtl

/-- The settlement, at time `now`, of the background-refresh producer call
`pid` whose fulfillment callback was attached for key `k`
(`cacheRecord.next.then((cachedValue) => { ... })`). First the promise
referenced by the record's fields settles; then the callback runs: it is
skipped on rejection (there is no rejection handler), it throws on a nullish
result (`if (!cachedValue) throw`), leaving the record's `value` and
`expires` untouched and `next` still holding the settled promise; on an
object result it promotes the current `next` into `value`, clears `next`,
and sets `expires = this._now() + _ttl`. -/
def ServeStaleCache.settleRefresh (s : ServeStaleCache) (k : Key) (pid : Nat)
    (o : ProducerOutcome) (now : Nat) : ServeStaleCache :=
  match storeLookup k s.cache with
  | Option.none => s
  | some e =>
      let n1 := if e.next = NextField.pending pid then settledOf o else e.next
      let v1 :=
        if e.value = ValueField.pendNext pid then
          match o with
          | ProducerOutcome.err => ValueField.err
          | ProducerOutcome.ok r => ValueField.ok r
        else e.value
      let e' :=
        match o with
        | ProducerOutcome.ok (JsResult.obj _ t) =>
            { e with
              value := valueOfNext n1,
              next := NextField.none,
              expires := now + effectiveTtl s.defaultTTL t }
        | _ => { e with next := n1, value := v1 }
      { s with cache := storeReplace k e' s.cache }

/-- Run a sequence of `get` calls (ignoring the returned promises), all at
time `now`; used to state the LRU-eviction property over cold misses. -/
def runGets (now : Nat) (s : ServeStaleCache) : List Key → ServeStaleCache
  | [] => s
  | k :: ks => runGets now (ServeStaleCache.get s k now).1 ks

/-- The records created by a run of cold misses at time `now` with default
ttl `dtl`, producer ids starting at `p0`, in insertion order. -/
def coldEntries (now dtl : Nat) : Nat → List Key → List (Key × Entry)
  | _, [] => []
  | p0, k :: ks => (k, mkRecord now dtl p0) :: coldEntries now dtl (p0 + 1) ks

def kA : Key := "a"
def kB : Key := "b"
def kC : Key := "c"

lemma jsOr_some_zero (d : Nat) : jsOr (some d) 0 = d := by
  simp only [jsOr]
  split <;> omega

lemma jsOr_some_ne (d x : Nat) (h : d ≠ 0) : jsOr (some d) x = d := by
  simp [jsOr, h]

lemma storeLookup_cons_self (k : Key) (e : Entry) (l : List (Key × Entry)) :
    storeLookup k ((k, e) :: l) = some e := by
  simp [storeLookup]

lemma storeErase_of_lookup_none (k : Key) (l : List (Key × Entry))
    (h : storeLookup k l = Option.none) : storeErase k l = l := by
  induction l with
  | nil => rfl
  | cons p rest ih =>
      obtain ⟨k', e⟩ := p
      by_cases hk : k' = k
      · simp [storeLookup, hk] at h
      · simp [storeLookup, hk] at h
        simp [storeErase, hk, ih h]

lemma storeLookup_eq_none_of_not_mem (k : Key) (l : List (Key × Entry))
    (h : k ∉ l.map Prod.fst) : storeLookup k l = Option.none := by
  induction l with
  | nil => rfl
  | cons p rest ih =>
      obtain ⟨k', e⟩ := p
      simp only [List.map_cons, List.mem_cons] at h
      push_neg at h
      have hne : ¬ k' = k := fun hh => h.1 hh.symm
      simp [storeLookup, hne, ih h.2]

lemma coldEntries_map_fst (now dtl p0 : Nat) (ks : List Key) :
    (coldEntries now dtl p0 ks).map Prod.fst = ks := by
  induction ks generalizing p0 with
  | nil => rfl
  | cons k ks ih => simp [coldEntries, ih]

lemma coldEntries_length (now dtl p0 : Nat) (ks : List Key) :
    (coldEntries now dtl p0 ks).length = ks.length := by
  have := coldEntries_map_fst now dtl p0 ks
  calc (coldEntries now dtl p0 ks).length
      = ((coldEntries now dtl p0 ks).map Prod.fst).length := by
        rw [List.length_map]
    _ = ks.length := by rw [this]

lemma runGets_append (now : Nat) (s : ServeStaleCache) (a b : List Key) :
    runGets now s (a ++ b) = runGets now (runGets now s a) b := by
  induction a generalizing s with
  | nil => rfl
  | cons k a ih => simp [runGets, ih]

lemma get_cold (s : ServeStaleCache) (k : Key) (now : Nat)
    (h : storeLookup k s.cache = Option.none)
    (hcap : s.cache.length + 1 ≤ s.capacity) :
    ServeStaleCache.get s k now =
      ({ s with
          cache := (k, mkRecord now s.defaultTTL s.nextPid) :: s.cache,
          nextPid := s.nextPid + 1 },
       GetRes.awaitInit s.nextPid, 1) := by
  simp only [ServeStaleCache.get, h, ServeStaleCache._set, lruInsert]
  rw [storeErase_of_lookup_none k s.cache h]
  rw [List.take_of_length_le (by simpa using hcap),
      List.drop_eq_nil_of_le (by simpa using hcap)]
  simp [callerView, mkRecord]

lemma runGets_cold (now : Nat) (ks : List Key) :
    ∀ s : ServeStaleCache, ks.Nodup →
      (∀ k ∈ ks, storeLookup k s.cache = Option.none) →
      s.cache.length + ks.length ≤ s.capacity →
      runGets now s ks =
        { s with
          cache := (coldEntries now s.defaultTTL s.nextPid ks).reverse ++ s.cache,
          nextPid := s.nextPid + ks.length } := by
  induction ks with
  | nil =>
      intro s _ _ _
      simp [runGets, coldEntries]
  | cons k ks ih =>
      intro s hnd habs hcap
      have hk : storeLookup k s.cache = Option.none := habs k (by simp)
      have hcap1 : s.cache.length + 1 ≤ s.capacity := by
        simp only [List.length_cons] at hcap
        omega
      simp only [runGets, get_cold s k now hk hcap1]
      rw [ih _ (List.Nodup.of_cons hnd) ?abs ?cap]
      case abs =>
        intro k' hk'
        have hne : k ≠ k' := by
          rintro rfl
          exact (List.nodup_cons.mp hnd).1 hk'
        simp [storeLookup, hne, habs k' (by simp [hk'])]
      case cap =>
        simp only [List.length_cons] at hcap ⊢
        omega
      simp [coldEntries, List.append_assoc]
      omega

lemma get_stale (s : ServeStaleCache) (k : Key) (e : Entry) (now : Nat)
    (h : storeLookup k s.cache = some e) (hexp : e.expires < now) :
    ServeStaleCache.get s k now =
      ({ s with
          cache := (k, { e with next := NextField.pending s.nextPid }) ::
            storeErase k s.cache,
          nextPid := s.nextPid + 1 },
       callerView e.value, 1) := by
  simp [ServeStaleCache.get, h, hexp]

lemma get_fresh (s : ServeStaleCache) (k : Key) (e : Entry) (now : Nat)
    (h : storeLookup k s.cache = some e) (hexp : ¬ e.expires < now) :
    ServeStaleCache.get s k now =
      ({ s with cache := (k, e) :: storeErase k s.cache },
       callerView e.value, 0) := by
  simp [ServeStaleCache.get, h, hexp]

/-- C8: for a fresh cache and any key K not previously looked up,
`getOrCreate(K, producer)` invokes the producer exactly once (the
invocation count of the lookup is 1 and settlement functions invoke no
producer), and the returned future resolves to the `value` field of the
producer's result. -/
theorem C8_theorem (cap dtl : Option Nat) (k : Key) (now v : Nat)
    (t : Option Nat) :
    (ServeStaleCache.get (ServeStaleCache.make cap dtl) k now).2.2 = 1 ∧
    ((ServeStaleCache.get (ServeStaleCache.make cap dtl) k now).2.1).withOutcome
        (ProducerOutcome.ok (JsResult.obj (some v) t)) =
      GetRes.resolved (some v) := by
  constructor <;>
    simp [ServeStaleCache.get, ServeStaleCache.make, storeLookup,
      ServeStaleCache._set, mkRecord, callerView, GetRes.withOutcome,
      settleView, lruInsert]

/-- C5 counterexample: a lookup at exactly `now = expiresAt` does NOT
invoke the producer. The entry for key `"a"` has `expires = 5` (first
population with ttl 5 at time 0); the lookup at time 5 performs 0 producer
invocations, contradicting the claim that `now >= expiresAt` triggers the
producer. -/
theorem C5_counterexample :
    storeLookup kA (ServeStaleCache.settleInitial
        (ServeStaleCache.get (ServeStaleCache.make (some 5) (some 0)) kA 0).1
        kA 0 (ProducerOutcome.ok (JsResult.obj (some 7) (some 5)))).cache =
      some ⟨5, NextField.none, ValueField.ok (JsResult.obj (some 7) (some 5))⟩ ∧
    (ServeStaleCache.get (ServeStaleCache.settleInitial
        (ServeStaleCache.get (ServeStaleCache.make (some 5) (some 0)) kA 0).1
        kA 0 (ProducerOutcome.ok (JsResult.obj (some 7) (some 5))))
      kA 5).2.2 = 0 := by
  decide

/-- C5 (amended): for every key present in the cache, the lookup invokes
the producer if and only if `now > expiresAt` (strictly); a lookup at
exactly `now = expiresAt` is treated as a non-expired hit. In every case
the lookup's result is the caller view of the entry's current `value`
promise. -/
theorem C5_theorem (s : ServeStaleCache) (k : Key) (e : Entry) (now : Nat)
    (h : storeLookup k s.cache = some e) :
    ((ServeStaleCache.get s k now).2.2 = 1 ↔ e.expires < now) ∧
    (ServeStaleCache.get s k now).2.1 = callerView e.value := by
  by_cases hex : e.expires < now
  · simp [ServeStaleCache.get, h, hex]
  · simp [ServeStaleCache.get, h, hex]

/-- C5 witness: the amended theorem at a concrete expired entry. -/
theorem C5_witness :
    ((ServeStaleCache.get
        ⟨[(kA, ⟨5, NextField.none,
            ValueField.ok (JsResult.obj (some 7) Option.none)⟩)],
          5, 0, [], 1⟩ kA 6).2.2 = 1 ↔ (5 : Nat) < 6) ∧
    (ServeStaleCache.get
        ⟨[(kA, ⟨5, NextField.none,
            ValueField.ok (JsResult.obj (some 7) Option.none)⟩)],
          5, 0, [], 1⟩ kA 6).2.1 =
      callerView (ValueField.ok (JsResult.obj (some 7) Option.none)) :=
  C5_theorem _ kA ⟨5, NextField.none,
    ValueField.ok (JsResult.obj (some 7) Option.none)⟩ 6 (by decide)

/-- C6: a lookup observing an expired entry triggers its own new producer
call even when the entry's `next` field already records an in-flight
refresh; the new call's id is fresh (distinct from the in-flight one) and
overwrites `next`. -/
theorem C6_theorem (s : ServeStaleCache) (k : Key) (e : Entry)
    (p0 now : Nat) (h : storeLookup k s.cache = some e)
    (hn : e.next = NextField.pending p0) (hp : p0 < s.nextPid)
    (hexp : e.expires < now) :
    (ServeStaleCache.get s k now).2.2 = 1 ∧
    storeLookup k (ServeStaleCache.get s k now).1.cache =
      some { e with next := NextField.pending s.nextPid } ∧
    s.nextPid ≠ p0 := by
  refine ⟨?_, ?_, by omega⟩ <;>
    simp [ServeStaleCache.get, h, hexp, storeLookup_cons_self]

/-- C6 witness: the theorem at a concrete entry with an in-flight refresh
recorded as producer call 0 and a fresh lookup at time 1. -/
theorem C6_witness :
    (ServeStaleCache.get
        ⟨[(kA, ⟨0, NextField.pending 0,
            ValueField.ok (JsResult.obj (some 1) Option.none)⟩)],
          5, 0, [], 1⟩ kA 1).2.2 = 1 ∧
    storeLookup kA (ServeStaleCache.get
        ⟨[(kA, ⟨0, NextField.pending 0,
            ValueField.ok (JsResult.obj (some 1) Option.none)⟩)],
          5, 0, [], 1⟩ kA 1).1.cache =
      some ⟨0, NextField.pending 1,
        ValueField.ok (JsResult.obj (some 1) Option.none)⟩ ∧
    (1 : Nat) ≠ 0 :=
  C6_theorem _ kA ⟨0, NextField.pending 0,
      ValueField.ok (JsResult.obj (some 1) Option.none)⟩ 0 1
    (by decide) (by decide) (by decide) (by decide)

/-- C4: when the entry for K is stale (`expiresAt < now`) and the triggered
background refresh producer fails, the triggering caller still resolves to
the stale value, the entry's `value` and `expires` are left untouched (only
the `next` handle now holds the settled failed promise), the failure reaches
no caller, and a subsequent lookup at any `now2 >= now` again serves the
stale value and triggers a new refresh attempt. -/
theorem C4_theorem (s : ServeStaleCache) (k : Key) (e : Entry)
    (now nowS now2 v1 : Nat) (t1 : Option Nat)
    (h : storeLookup k s.cache = some e)
    (hv : e.value = ValueField.ok (JsResult.obj (some v1) t1))
    (hexp : e.expires < now) (hle : now ≤ now2) :
    (ServeStaleCache.get s k now).2.1 = GetRes.resolved (some v1) ∧
    (ServeStaleCache.get s k now).2.2 = 1 ∧
    storeLookup k
      (ServeStaleCache.settleRefresh (ServeStaleCache.get s k now).1 k
        s.nextPid ProducerOutcome.err nowS).cache =
      some { e with next := NextField.settledErr } ∧
    (ServeStaleCache.get
      (ServeStaleCache.settleRefresh (ServeStaleCache.get s k now).1 k
        s.nextPid ProducerOutcome.err nowS) k now2).2.1 =
      GetRes.resolved (some v1) ∧
    (ServeStaleCache.get
      (ServeStaleCache.settleRefresh (ServeStaleCache.get s k now).1 k
        s.nextPid ProducerOutcome.err nowS) k now2).2.2 = 1 := by
  have hexp2 : e.expires < now2 := lt_of_lt_of_le hexp hle
  rw [get_stale s k e now h hexp]
  simp [ServeStaleCache.settleRefresh, storeLookup_cons_self, hv,
    storeReplace, ServeStaleCache.get, hexp2, callerView, settledOf]

/-- C4 witness: the theorem at a concrete stale entry whose refresh fails. -/
theorem C4_witness :
    (ServeStaleCache.get
        ⟨[(kA, ⟨0, NextField.none,
            ValueField.ok (JsResult.obj (some 7) (some 5))⟩)],
          5, 0, [], 3⟩ kA 1).2.1 = GetRes.resolved (some 7) ∧
    (ServeStaleCache.get
        ⟨[(kA, ⟨0, NextField.none,
            ValueField.ok (JsResult.obj (some 7) (some 5))⟩)],
          5, 0, [], 3⟩ kA 1).2.2 = 1 ∧
    storeLookup kA
      (ServeStaleCache.settleRefresh
        (ServeStaleCache.get
          ⟨[(kA, ⟨0, NextField.none,
              ValueField.ok (JsResult.obj (some 7) (some 5))⟩)],
            5, 0, [], 3⟩ kA 1).1 kA 3 ProducerOutcome.err 2).cache =
      some ⟨0, NextField.settledErr,
        ValueField.ok (JsResult.obj (some 7) (some 5))⟩ ∧
    (ServeStaleCache.get
      (ServeStaleCache.settleRefresh
        (ServeStaleCache.get
          ⟨[(kA, ⟨0, NextField.none,
              ValueField.ok (JsResult.obj (some 7) (some 5))⟩)],
            5, 0, [], 3⟩ kA 1).1 kA 3 ProducerOutcome.err 2) kA 4).2.1 =
      GetRes.resolved (some 7) ∧
    (ServeStaleCache.get
      (ServeStaleCache.settleRefresh
        (ServeStaleCache.get
          ⟨[(kA, ⟨0, NextField.none,
              ValueField.ok (JsResult.obj (some 7) (some 5))⟩)],
            5, 0, [], 3⟩ kA 1).1 kA 3 ProducerOutcome.err 2) kA 4).2.2 = 1 :=
  C4_theorem _ kA ⟨0, NextField.none,
      ValueField.ok (JsResult.obj (some 7) (some 5))⟩ 1 2 4 7 (some 5)
    (by decide) (by decide) (by decide) (by decide)

/-- C3 counterexample: at exactly `now = expiresAt` the lookup performs no
producer invocation at all, so no background refresh exists and a
subsequent lookup still resolves to the old value — contradicting the
claim for the boundary case `now >= expiresAt` of P3 (`t1 = t0 + T`). -/
theorem C3_counterexample :
    storeLookup kB (ServeStaleCache.settleInitial
        (ServeStaleCache.get (ServeStaleCache.make (some 5) (some 0)) kB 0).1
        kB 0 (ProducerOutcome.ok (JsResult.obj (some 1) (some 100)))).cache =
      some ⟨100, NextField.none,
        ValueField.ok (JsResult.obj (some 1) (some 100))⟩ ∧
    (ServeStaleCache.get (ServeStaleCache.settleInitial
        (ServeStaleCache.get (ServeStaleCache.make (some 5) (some 0)) kB 0).1
        kB 0 (ProducerOutcome.ok (JsResult.obj (some 1) (some 100))))
      kB 100).2.2 = 0 ∧
    (ServeStaleCache.get
      (ServeStaleCache.get (ServeStaleCache.settleInitial
          (ServeStaleCache.get (ServeStaleCache.make (some 5) (some 0)) kB 0).1
          kB 0 (ProducerOutcome.ok (JsResult.obj (some 1) (some 100))))
        kB 100).1 kB 100).2.1 = GetRes.resolved (some 1) := by
  decide

/-- C3 (amended): for every key K present with `now > expiresAt`
(strictly; at equality the entry counts as fresh), the lookup resolves to
the current stale value without waiting for the triggered producer call;
when that background call succeeds, the entry's value is replaced with the
new result, `expiresAt` is recomputed at settlement time as
`now + (result.ttl when positive, else defaultTTL)`, `pendingRefresh` is
cleared, and a subsequent lookup resolves to the new value. -/
theorem C3_theorem (s : ServeStaleCache) (k : Key) (e : Entry)
    (now nowS now2 v1 v2 : Nat) (t1 t2 : Option Nat)
    (h : storeLookup k s.cache = some e)
    (hv : e.value = ValueField.ok (JsResult.obj (some v1) t1))
    (hexp : e.expires < now) :
    (ServeStaleCache.get s k now).2.1 = GetRes.resolved (some v1) ∧
    (ServeStaleCache.get s k now).2.2 = 1 ∧
    storeLookup k
      (ServeStaleCache.settleRefresh (ServeStaleCache.get s k now).1 k
        s.nextPid (ProducerOutcome.ok (JsResult.obj (some v2) t2)) nowS).cache =
      some ⟨nowS + effectiveTtl s.defaultTTL t2, NextField.none,
        ValueField.ok (JsResult.obj (some v2) t2)⟩ ∧
    (ServeStaleCache.get
      (ServeStaleCache.settleRefresh (ServeStaleCache.get s k now).1 k
        s.nextPid (ProducerOutcome.ok (JsResult.obj (some v2) t2)) nowS)
      k now2).2.1 = GetRes.resolved (some v2) := by
  rw [get_stale s k e now h hexp]
  simp only [ServeStaleCache.settleRefresh, storeLookup_cons_self]
  simp [hv, storeReplace, settledOf, valueOfNext, ServeStaleCache.get,
    storeLookup_cons_self, callerView]
  split <;> simp [callerView]

/-- C3 witness: the amended theorem at a concrete stale entry refreshed
with a result carrying no ttl (so the default ttl 0 applies at settle
time 2). -/
theorem C3_witness :
    (ServeStaleCache.get
        ⟨[(kA, ⟨0, NextField.none,
            ValueField.ok (JsResult.obj (some 7) (some 5))⟩)],
          5, 0, [], 0⟩ kA 1).2.1 = GetRes.resolved (some 7) ∧
    (ServeStaleCache.get
        ⟨[(kA, ⟨0, NextField.none,
            ValueField.ok (JsResult.obj (some 7) (some 5))⟩)],
          5, 0, [], 0⟩ kA 1).2.2 = 1 ∧
    storeLookup kA
      (ServeStaleCache.settleRefresh
        (ServeStaleCache.get
          ⟨[(kA, ⟨0, NextField.none,
              ValueField.ok (JsResult.obj (some 7) (some 5))⟩)],
            5, 0, [], 0⟩ kA 1).1 kA 0
        (ProducerOutcome.ok (JsResult.obj (some 9) Option.none)) 2).cache =
      some ⟨2, NextField.none,
        ValueField.ok (JsResult.obj (some 9) Option.none)⟩ ∧
    (ServeStaleCache.get
      (ServeStaleCache.settleRefresh
        (ServeStaleCache.get
          ⟨[(kA, ⟨0, NextField.none,
              ValueField.ok (JsResult.obj (some 7) (some 5))⟩)],
            5, 0, [], 0⟩ kA 1).1 kA 0
        (ProducerOutcome.ok (JsResult.obj (some 9) Option.none)) 2)
      kA 10).2.1 = GetRes.resolved (some 9) :=
  C3_theorem _ kA ⟨0, NextField.none,
      ValueField.ok (JsResult.obj (some 7) (some 5))⟩ 1 2 10 7 9 (some 5)
    Option.none (by decide) (by decide) (by decide)

/-- C7 counterexample: after a background refresh fails, the entry's
`next` handle is NOT cleared — it still holds the settled failed promise
even though no refresh is running, contradicting the invariant that
`pendingRefresh` is `None` whenever no refresh is in flight. -/
theorem C7_counterexample :
    storeLookup kC
      (ServeStaleCache.settleRefresh
        (ServeStaleCache.get
          ⟨[(kC, ⟨0, NextField.none,
              ValueField.ok (JsResult.obj (some 4) Option.none)⟩)],
            5, 0, [], 0⟩ kC 1).1 kC 0 ProducerOutcome.err 1).cache =
      some ⟨0, NextField.settledErr,
        ValueField.ok (JsResult.obj (some 4) Option.none)⟩ ∧
    NextField.settledErr ≠ NextField.none := by
  decide

/-- C7 (amended): the `next` handle is non-null from the moment a refresh
is triggered; when the refresh resolves successfully it is cleared
atomically with promoting the result into `value`; but when the refresh
fails it is NOT cleared — it keeps referencing the settled failed promise
until the next expired lookup overwrites it with a fresh pending call. -/
theorem C7_theorem (s : ServeStaleCache) (k : Key) (e : Entry)
    (now nowS now2 v1 v2 : Nat) (t1 t2 : Option Nat)
    (h : storeLookup k s.cache = some e)
    (hv : e.value = ValueField.ok (JsResult.obj (some v1) t1))
    (hexp : e.expires < now) (hexp2 : e.expires < now2) :
    storeLookup k (ServeStaleCache.get s k now).1.cache =
      some { e with next := NextField.pending s.nextPid } ∧
    (storeLookup k
      (ServeStaleCache.settleRefresh (ServeStaleCache.get s k now).1 k
        s.nextPid (ProducerOutcome.ok (JsResult.obj (some v2) t2))
        nowS).cache).map Entry.next = some NextField.none ∧
    storeLookup k
      (ServeStaleCache.settleRefresh (ServeStaleCache.get s k now).1 k
        s.nextPid ProducerOutcome.err nowS).cache =
      some { e with next := NextField.settledErr } ∧
    storeLookup k
      (ServeStaleCache.get
        (ServeStaleCache.settleRefresh (ServeStaleCache.get s k now).1 k
          s.nextPid ProducerOutcome.err nowS) k now2).1.cache =
      some { e with next := NextField.pending (s.nextPid + 1) } := by
  rw [get_stale s k e now h hexp]
  simp only [ServeStaleCache.settleRefresh, storeLookup_cons_self]
  simp [hv, storeReplace, settledOf, valueOfNext, ServeStaleCache.get,
    storeLookup_cons_self, callerView, hexp2]

/-- C7 witness: the amended theorem at a concrete stale entry. -/
theorem C7_witness :
    storeLookup kA (ServeStaleCache.get
        ⟨[(kA, ⟨0, NextField.none,
            ValueField.ok (JsResult.obj (some 7) (some 5))⟩)],
          5, 0, [], 0⟩ kA 1).1.cache =
      some ⟨0, NextField.pending 0,
        ValueField.ok (JsResult.obj (some 7) (some 5))⟩ ∧
    (storeLookup kA
      (ServeStaleCache.settleRefresh
        (ServeStaleCache.get
          ⟨[(kA, ⟨0, NextField.none,
              ValueField.ok (JsResult.obj (some 7) (some 5))⟩)],
            5, 0, [], 0⟩ kA 1).1 kA 0
        (ProducerOutcome.ok (JsResult.obj (some 9) (some 3)))
        2).cache).map Entry.next = some NextField.none ∧
    storeLookup kA
      (ServeStaleCache.settleRefresh
        (ServeStaleCache.get
          ⟨[(kA, ⟨0, NextField.none,
              ValueField.ok (JsResult.obj (some 7) (some 5))⟩)],
            5, 0, [], 0⟩ kA 1).1 kA 0 ProducerOutcome.err 2).cache =
      some ⟨0, NextField.settledErr,
        ValueField.ok (JsResult.obj (some 7) (some 5))⟩ ∧
    storeLookup kA
      (ServeStaleCache.get
        (ServeStaleCache.settleRefresh
          (ServeStaleCache.get
            ⟨[(kA, ⟨0, NextField.none,
                ValueField.ok (JsResult.obj (some 7) (some 5))⟩)],
              5, 0, [], 0⟩ kA 1).1 kA 0 ProducerOutcome.err 2) kA 3).1.cache =
      some ⟨0, NextField.pending 1,
        ValueField.ok (JsResult.obj (some 7) (some 5))⟩ :=
  C7_theorem _ kA ⟨0, NextField.none,
      ValueField.ok (JsResult.obj (some 7) (some 5))⟩ 1 2 3 7 9 (some 5)
    (some 3) (by decide) (by decide) (by decide) (by decide)

/-- C10: a producer result whose `ttl` field is exactly 0 is treated as if
the ttl were absent: on initial population the entry's `expiresAt` stays
`now + defaultTTL` (the `_set` callback's truthiness test skips the
update), and on a successful background refresh `expiresAt` becomes
`settleNow + defaultTTL`. -/
theorem C10_theorem (s s2 : ServeStaleCache) (k k2 : Key) (e2 : Entry)
    (now now2 nowS : Nat) (v w : Option Nat)
    (hcap : 1 ≤ s.capacity)
    (hmiss : storeLookup k s.cache = Option.none)
    (h2 : storeLookup k2 s2.cache = some e2)
    (hexp2 : e2.expires < now2) :
    storeLookup k
      (ServeStaleCache.settleInitial (ServeStaleCache.get s k now).1 k
        s.nextPid (ProducerOutcome.ok (JsResult.obj v (some 0)))).cache =
      some ⟨now + s.defaultTTL, NextField.none,
        ValueField.ok (JsResult.obj v (some 0))⟩ ∧
    storeLookup k2
      (ServeStaleCache.settleRefresh (ServeStaleCache.get s2 k2 now2).1 k2
        s2.nextPid (ProducerOutcome.ok (JsResult.obj w (some 0))) nowS).cache =
      some ⟨nowS + s2.defaultTTL, NextField.none,
        ValueField.ok (JsResult.obj w (some 0))⟩ := by
  obtain ⟨m, hm⟩ :=
    Nat.exists_eq_succ_of_ne_zero (Nat.one_le_iff_ne_zero.mp hcap)
  constructor
  · simp [ServeStaleCache.get, hmiss, ServeStaleCache._set, lruInsert, hm,
      List.take_succ_cons, mkRecord, ServeStaleCache.settleInitial,
      storeLookup_cons_self, storeReplace]
  · rw [get_stale s2 k2 e2 now2 h2 hexp2]
    simp only [ServeStaleCache.settleRefresh, storeLookup_cons_self]
    simp [storeReplace, settledOf, valueOfNext, storeLookup_cons_self,
      effectiveTtl]

/-- C10 witness: both parts at concrete inputs (default ttl 7, producer
ttl 0: expiry becomes `now + 7`, not `now + 0`). -/
theorem C10_witness :
    storeLookup kA
      (ServeStaleCache.settleInitial
        (ServeStaleCache.get
          ⟨[], 5, 7, [], 0⟩ kA 1).1 kA 0
        (ProducerOutcome.ok (JsResult.obj (some 3) (some 0)))).cache =
      some ⟨8, NextField.none,
        ValueField.ok (JsResult.obj (some 3) (some 0))⟩ ∧
    storeLookup kB
      (ServeStaleCache.settleRefresh
        (ServeStaleCache.get
          ⟨[(kB, ⟨0, NextField.none,
              ValueField.ok (JsResult.obj (some 4) (some 5))⟩)],
            5, 7, [], 0⟩ kB 6).1 kB 0
        (ProducerOutcome.ok (JsResult.obj (some 9) (some 0))) 6).cache =
      some ⟨13, NextField.none,
        ValueField.ok (JsResult.obj (some 9) (some 0))⟩ :=
  C10_theorem ⟨[], 5, 7, [], 0⟩
    ⟨[(kB, ⟨0, NextField.none,
        ValueField.ok (JsResult.obj (some 4) (some 5))⟩)], 5, 7, [], 0⟩
    kA kB ⟨0, NextField.none, ValueField.ok (JsResult.obj (some 4) (some 5))⟩
    1 6 6 (some 3) (some 9)
    (by decide) (by decide) (by decide) (by decide)

/-- C1 counterexample: when the very first producer call for key `"a"`
fails, the lookup fails as claimed, BUT an entry for the key remains in
the store (holding the rejected `value` promise), and a following lookup
with a succeeding producer does not behave as a cold miss: it rejects
again (serving the stored rejection) instead of resolving to the new
producer's value. -/
theorem C1_counterexample :
    ((ServeStaleCache.get (ServeStaleCache.make (some 5) (some 0))
        kA 0).2.1).withOutcome ProducerOutcome.err = GetRes.rejected ∧
    storeLookup kA (ServeStaleCache.settleInitial
        (ServeStaleCache.get (ServeStaleCache.make (some 5) (some 0)) kA 0).1
        kA 0 ProducerOutcome.err).cache =
      some ⟨0, NextField.none, ValueField.err⟩ ∧
    (ServeStaleCache.get (ServeStaleCache.settleInitial
        (ServeStaleCache.get (ServeStaleCache.make (some 5) (some 0)) kA 0).1
        kA 0 ProducerOutcome.err) kA 1).2.1 = GetRes.rejected ∧
    (ServeStaleCache.get (ServeStaleCache.settleInitial
        (ServeStaleCache.get (ServeStaleCache.make (some 5) (some 0)) kA 0).1
        kA 0 ProducerOutcome.err) kA 1).2.2 = 1 := by
  decide

/-- C1 (amended): if the producer fails on the very first call for key K,
`getOrCreate(K, producer)` fails, but an entry for K REMAINS stored,
holding the rejected `value` promise with `expiresAt = now + defaultTTL`.
A following `getOrCreate(K, producer2)` with a succeeding producer does
not behave as a cold miss: when the poisoned entry is expired it fails
again with the stored rejection while invoking producer2 only as a
background refresh; only after that refresh settles does a later lookup
resolve to producer2's value. -/
theorem C1_theorem (s : ServeStaleCache) (k : Key)
    (now now2 now3 nowS v : Nat) (t : Option Nat)
    (hcap : 1 ≤ s.capacity)
    (hmiss : storeLookup k s.cache = Option.none)
    (hexp : now + s.defaultTTL < now2) :
    ((ServeStaleCache.get s k now).2.1).withOutcome ProducerOutcome.err =
      GetRes.rejected ∧
    storeLookup k
      (ServeStaleCache.settleInitial (ServeStaleCache.get s k now).1 k
        s.nextPid ProducerOutcome.err).cache =
      some ⟨now + s.defaultTTL, NextField.none, ValueField.err⟩ ∧
    (ServeStaleCache.get
      (ServeStaleCache.settleInitial (ServeStaleCache.get s k now).1 k
        s.nextPid ProducerOutcome.err) k now2).2.1 = GetRes.rejected ∧
    (ServeStaleCache.get
      (ServeStaleCache.settleInitial (ServeStaleCache.get s k now).1 k
        s.nextPid ProducerOutcome.err) k now2).2.2 = 1 ∧
    (ServeStaleCache.get
      (ServeStaleCache.settleRefresh
        (ServeStaleCache.get
          (ServeStaleCache.settleInitial (ServeStaleCache.get s k now).1 k
            s.nextPid ProducerOutcome.err) k now2).1 k
        (s.nextPid + 1) (ProducerOutcome.ok (JsResult.obj (some v) t))
        nowS) k now3).2.1 = GetRes.resolved (some v) := by
  obtain ⟨m, hm⟩ :=
    Nat.exists_eq_succ_of_ne_zero (Nat.one_le_iff_ne_zero.mp hcap)
  simp only [ServeStaleCache.get, hmiss, ServeStaleCache._set, lruInsert,
    hm, List.take_succ_cons, mkRecord]
  simp only [ServeStaleCache.settleInitial, storeLookup_cons_self,
    storeReplace]
  simp [ServeStaleCache.get, storeLookup_cons_self, hexp, callerView,
    GetRes.withOutcome, settleView, ServeStaleCache.settleRefresh,
    storeReplace, settledOf, valueOfNext]
  split <;> simp [callerView]

/-- C1 witness: the amended theorem at a concrete failing-then-succeeding
producer pair on an empty cache. -/
theorem C1_witness :
    ((ServeStaleCache.get ⟨[], 5, 0, [], 0⟩ kA 0).2.1).withOutcome
      ProducerOutcome.err = GetRes.rejected ∧
    storeLookup kA
      (ServeStaleCache.settleInitial
        (ServeStaleCache.get ⟨[], 5, 0, [], 0⟩ kA 0).1 kA 0
        ProducerOutcome.err).cache =
      some ⟨0, NextField.none, ValueField.err⟩ ∧
    (ServeStaleCache.get
      (ServeStaleCache.settleInitial
        (ServeStaleCache.get ⟨[], 5, 0, [], 0⟩ kA 0).1 kA 0
        ProducerOutcome.err) kA 1).2.1 = GetRes.rejected ∧
    (ServeStaleCache.get
      (ServeStaleCache.settleInitial
        (ServeStaleCache.get ⟨[], 5, 0, [], 0⟩ kA 0).1 kA 0
        ProducerOutcome.err) kA 1).2.2 = 1 ∧
    (ServeStaleCache.get
      (ServeStaleCache.settleRefresh
        (ServeStaleCache.get
          (ServeStaleCache.settleInitial
            (ServeStaleCache.get ⟨[], 5, 0, [], 0⟩ kA 0).1 kA 0
            ProducerOutcome.err) kA 1).1 kA 1
        (ProducerOutcome.ok (JsResult.obj (some 3) Option.none)) 1)
      kA 2).2.1 = GetRes.resolved (some 3) :=
  C1_theorem ⟨[], 5, 0, [], 0⟩ kA 0 1 2 1 3 Option.none
    (by decide) (by decide) (by decide)

/-- C2 counterexample: a producer that resolves to a truthy object lacking
the mandatory `value` field is NOT treated as a producer failure. On a
cold miss the caller's future resolves (to `undefined`) instead of
failing, and a malformed entry is stored; on a background refresh the
malformed result passes the `!cachedValue` check and replaces the entry's
value and expiry instead of being dropped. -/
theorem C2_counterexample :
    ((ServeStaleCache.get (ServeStaleCache.make (some 5) (some 0))
        kA 0).2.1).withOutcome
      (ProducerOutcome.ok (JsResult.obj Option.none Option.none)) =
      GetRes.resolved Option.none ∧
    storeLookup kA (ServeStaleCache.settleInitial
        (ServeStaleCache.get (ServeStaleCache.make (some 5) (some 0)) kA 0).1
        kA 0 (ProducerOutcome.ok (JsResult.obj Option.none Option.none))).cache =
      some ⟨0, NextField.none,
        ValueField.ok (JsResult.obj Option.none Option.none)⟩ ∧
    storeLookup kB
      (ServeStaleCache.settleRefresh
        (ServeStaleCache.get
          ⟨[(kB, ⟨0, NextField.none,
              ValueField.ok (JsResult.obj (some 7) (some 5))⟩)],
            5, 0, [], 0⟩ kB 1).1 kB 0
        (ProducerOutcome.ok (JsResult.obj Option.none Option.none)) 9).cache =
      some ⟨9, NextField.none,
        ValueField.ok (JsResult.obj Option.none Option.none)⟩ := by
  decide

/-- C2 (amended): only a falsy (null/undefined) producer result is treated
like a failure, and differently on the two paths: on a miss a falsy result
fails the caller (the `_set` callback's `val.ttl` access throws) and the
entry's value chain is rejected; a truthy result lacking `value` is
treated as success — the caller resolves to `undefined` and the malformed
result is stored. On a refresh, a falsy result is dropped (value and
expiry untouched, the settled promise left in `next`), while a truthy
result lacking `value` passes the `!cachedValue` check and replaces the
entry's value and expiry. -/
theorem C2_theorem (s s2 : ServeStaleCache) (k k2 : Key) (e2 : Entry)
    (now now2 nowS v2 : Nat) (t t2 u2 : Option Nat)
    (hcap : 1 ≤ s.capacity)
    (hmiss : storeLookup k s.cache = Option.none)
    (h2 : storeLookup k2 s2.cache = some e2)
    (hv2 : e2.value = ValueField.ok (JsResult.obj (some v2) u2))
    (hexp2 : e2.expires < now2) :
    ((ServeStaleCache.get s k now).2.1).withOutcome
      (ProducerOutcome.ok JsResult.nullish) = GetRes.rejected ∧
    (storeLookup k
      (ServeStaleCache.settleInitial (ServeStaleCache.get s k now).1 k
        s.nextPid (ProducerOutcome.ok JsResult.nullish)).cache).map
      Entry.value = some ValueField.err ∧
    ((ServeStaleCache.get s k now).2.1).withOutcome
      (ProducerOutcome.ok (JsResult.obj Option.none t)) =
      GetRes.resolved Option.none ∧
    (storeLookup k
      (ServeStaleCache.settleInitial (ServeStaleCache.get s k now).1 k
        s.nextPid (ProducerOutcome.ok (JsResult.obj Option.none t))).cache).map
      Entry.value = some (ValueField.ok (JsResult.obj Option.none t)) ∧
    storeLookup k2
      (ServeStaleCache.settleRefresh (ServeStaleCache.get s2 k2 now2).1 k2
        s2.nextPid (ProducerOutcome.ok JsResult.nullish) nowS).cache =
      some ⟨e2.expires, NextField.settled JsResult.nullish, e2.value⟩ ∧
    storeLookup k2
      (ServeStaleCache.settleRefresh (ServeStaleCache.get s2 k2 now2).1 k2
        s2.nextPid (ProducerOutcome.ok (JsResult.obj Option.none t2))
        nowS).cache =
      some ⟨nowS + effectiveTtl s2.defaultTTL t2, NextField.none,
        ValueField.ok (JsResult.obj Option.none t2)⟩ := by
  obtain ⟨m, hm⟩ :=
    Nat.exists_eq_succ_of_ne_zero (Nat.one_le_iff_ne_zero.mp hcap)
  refine ⟨?_, ?_, ?_, ?_, ?_, ?_⟩
  · simp [ServeStaleCache.get, hmiss, ServeStaleCache._set, lruInsert, hm,
      List.take_succ_cons, mkRecord, callerView, GetRes.withOutcome,
      settleView]
  · simp [ServeStaleCache.get, hmiss, ServeStaleCache._set, lruInsert, hm,
      List.take_succ_cons, mkRecord, ServeStaleCache.settleInitial,
      storeLookup_cons_self, storeReplace]
  · simp [ServeStaleCache.get, hmiss, ServeStaleCache._set, lruInsert, hm,
      List.take_succ_cons, mkRecord, callerView, GetRes.withOutcome,
      settleView]
  · simp [ServeStaleCache.get, hmiss, ServeStaleCache._set, lruInsert, hm,
      List.take_succ_cons, mkRecord, ServeStaleCache.settleInitial,
      storeLookup_cons_self, storeReplace]
  · rw [get_stale s2 k2 e2 now2 h2 hexp2]
    simp only [ServeStaleCache.settleRefresh, storeLookup_cons_self]
    simp [hv2, storeReplace, settledOf, storeLookup_cons_self]
  · rw [get_stale s2 k2 e2 now2 h2 hexp2]
    simp only [ServeStaleCache.settleRefresh, storeLookup_cons_self]
    simp [hv2, storeReplace, settledOf, valueOfNext, storeLookup_cons_self]

/-- C2 witness: the amended theorem at concrete inputs (fresh cache with
default ttl 0 for the miss part; a stale entry with value 7 for the
refresh part). -/
theorem C2_witness :
    ((ServeStaleCache.get ⟨[], 5, 0, [], 0⟩ kA 0).2.1).withOutcome
      (ProducerOutcome.ok JsResult.nullish) = GetRes.rejected ∧
    (storeLookup kA
      (ServeStaleCache.settleInitial
        (ServeStaleCache.get ⟨[], 5, 0, [], 0⟩ kA 0).1 kA 0
        (ProducerOutcome.ok JsResult.nullish)).cache).map
      Entry.value = some ValueField.err ∧
    ((ServeStaleCache.get ⟨[], 5, 0, [], 0⟩ kA 0).2.1).withOutcome
      (ProducerOutcome.ok (JsResult.obj Option.none (some 2))) =
      GetRes.resolved Option.none ∧
    (storeLookup kA
      (ServeStaleCache.settleInitial
        (ServeStaleCache.get ⟨[], 5, 0, [], 0⟩ kA 0).1 kA 0
        (ProducerOutcome.ok (JsResult.obj Option.none (some 2)))).cache).map
      Entry.value =
      some (ValueField.ok (JsResult.obj Option.none (some 2))) ∧
    storeLookup kB
      (ServeStaleCache.settleRefresh
        (ServeStaleCache.get
          ⟨[(kB, ⟨0, NextField.none,
              ValueField.ok (JsResult.obj (some 7) (some 5))⟩)],
            5, 0, [], 0⟩ kB 1).1 kB 0
        (ProducerOutcome.ok JsResult.nullish) 9).cache =
      some ⟨0, NextField.settled JsResult.nullish,
        ValueField.ok (JsResult.obj (some 7) (some 5))⟩ ∧
    storeLookup kB
      (ServeStaleCache.settleRefresh
        (ServeStaleCache.get
          ⟨[(kB, ⟨0, NextField.none,
              ValueField.ok (JsResult.obj (some 7) (some 5))⟩)],
            5, 0, [], 0⟩ kB 1).1 kB 0
        (ProducerOutcome.ok (JsResult.obj Option.none (some 4))) 9).cache =
      some ⟨13, NextField.none,
        ValueField.ok (JsResult.obj Option.none (some 4))⟩ :=
  C2_theorem ⟨[], 5, 0, [], 0⟩
    ⟨[(kB, ⟨0, NextField.none,
        ValueField.ok (JsResult.obj (some 7) (some 5))⟩)], 5, 0, [], 0⟩
    kA kB ⟨0, NextField.none, ValueField.ok (JsResult.obj (some 7) (some 5))⟩
    0 1 9 7 (some 2) (some 4) (some 5)
    (by decide) (by decide) (by decide) (by decide) (by decide)

/-- C9: with capacity N (at least 1), after N+1 distinct keys are each
inserted via a cold miss, the least-recently-accessed key (the first one
inserted, never re-accessed) is absent from the store, the store holds no
more than N entries, and the dispose callback has been invoked exactly
once, with that evicted key's stored record. The bounded store is
modelled from the spec (the `lru-cache` dependency is not part of this
repository's sources). -/
theorem C9_theorem (cap dtl now : Nat) (k0 klast : Key) (mid : List Key)
    (hcap : 1 ≤ cap)
    (hnd : ((k0 :: mid) ++ [klast]).Nodup)
    (hlen : mid.length + 1 = cap) :
    storeLookup k0 (runGets now (ServeStaleCache.make (some cap) (some dtl))
        ((k0 :: mid) ++ [klast])).cache = Option.none ∧
    (runGets now (ServeStaleCache.make (some cap) (some dtl))
        ((k0 :: mid) ++ [klast])).cache.length ≤ cap ∧
    (runGets now (ServeStaleCache.make (some cap) (some dtl))
        ((k0 :: mid) ++ [klast])).disposed = [mkRecord now dtl 0] := by
  have hcap0 : cap ≠ 0 := by omega
  have hnd' := List.nodup_append.mp hnd
  have hklast : klast ∉ k0 :: mid := fun hmem => hnd'.2.2 hmem (by simp)
  have hk0 : k0 ∉ mid := (List.nodup_cons.mp hnd'.1).1
  have hk0last : k0 ≠ klast := by
    intro h
    exact hklast (by simp [h])
  have habs :
      storeLookup klast ((coldEntries now dtl 0 (k0 :: mid)).reverse) =
        Option.none := by
    apply storeLookup_eq_none_of_not_mem
    rw [List.map_reverse, coldEntries_map_fst, List.mem_reverse]
    exact hklast
  have hlenx :
      ((klast, mkRecord now dtl (0 + (mid.length + 1))) ::
        (coldEntries now dtl 1 mid).reverse).length = cap := by
    simp [coldEntries_length]
    omega
  have key : runGets now (ServeStaleCache.make (some cap) (some dtl))
      ((k0 :: mid) ++ [klast]) =
      { cache := (klast, mkRecord now dtl (0 + (mid.length + 1))) ::
          (coldEntries now dtl 1 mid).reverse,
        capacity := cap, defaultTTL := dtl,
        disposed := [mkRecord now dtl 0],
        nextPid := 0 + (mid.length + 1) + 1 } := by
    rw [runGets_append,
      runGets_cold now (k0 :: mid) (ServeStaleCache.make (some cap) (some dtl))
        hnd'.1 (fun k _ => rfl)
        (by simp [ServeStaleCache.make, jsOr_some_ne cap 5000 hcap0]; omega)]
    simp only [runGets, ServeStaleCache.make, jsOr_some_zero,
      jsOr_some_ne cap 5000 hcap0, List.append_nil, List.length_cons]
    simp only [ServeStaleCache.get, habs, ServeStaleCache._set, lruInsert,
      storeErase_of_lookup_none _ _ habs]
    have hsplit : (coldEntries now dtl 0 (k0 :: mid)).reverse =
        (coldEntries now dtl 1 mid).reverse ++ [(k0, mkRecord now dtl 0)] := by
      simp [coldEntries]
    rw [hsplit, ← List.cons_append, List.take_left' ?hl, List.drop_left' ?hl]
    case hl =>
      simpa [coldEntries_length] using hlenx
    simp
  rw [key]
  refine ⟨?_, ?_, rfl⟩
  · apply storeLookup_eq_none_of_not_mem
    simp only [List.map_cons, List.map_reverse, coldEntries_map_fst,
      List.mem_cons, List.mem_reverse]
    rintro (h | h)
    · exact hk0last h
    · exact hk0 h
  · simp [coldEntries_length]
    omega

/-- C9 witness: capacity 1, two distinct keys `"a"` then `"b"`: the store
ends holding only `"b"`, and the record created for `"a"` was disposed. -/
theorem C9_witness :
    storeLookup kA (runGets 0 (ServeStaleCache.make (some 1) (some 0))
        ((kA :: []) ++ [kB])).cache = Option.none ∧
    (runGets 0 (ServeStaleCache.make (some 1) (some 0))
        ((kA :: []) ++ [kB])).cache.length ≤ 1 ∧
    (runGets 0 (ServeStaleCache.make (some 1) (some 0))
        ((kA :: []) ++ [kB])).disposed = [mkRecord 0 0 0] :=
  C9_theorem 1 0 0 kA kB [] (by decide) (by decide) (by decide)

end ServeStale
